import Mathlib

/-!
Verification of the `am-i-home` router client (Go sources) against its
natural-language specification.

The Go code under `internal/router` is shallowly embedded here:

* Go strings are modelled as Lean `String`s; where the code iterates the raw
  bytes of a string (`normalizeMAC`, the hash primitives) we work with the
  UTF-8 byte list (`strBytes`), each byte a `Nat < 256`, matching Go's
  `[]byte(s)` / `s[i]` views.
* `pbkdf2Hex` (file `internal/router/homestation.go`) calls
  `golang.org/x/crypto/pbkdf2` with SHA-256, 1000 iterations and a 16-byte
  key; SHA-256, HMAC-SHA256 and PBKDF2 are embedded executably below,
  following FIPS 180-4 / RFC 2104 / RFC 2898, which is what those library
  calls compute.
* The HTTP transport and `encoding/json` live outside the repository. A run
  of the client is modelled against an environment (`Env`) that gives, for
  each endpoint the code can hit, the transport outcome and the
  already-parsed view of the body — exactly the information
  `doPostForm`/`doGet` + `json.Unmarshal` hand back to the repo's code.
  The functions `tryLogin`, `fetchHostTbl` and `listConnected` mirror the
  Go control flow statement by statement and additionally record the trace
  of outgoing requests and hash computations, so that ordering claims
  ("logout happens after the fetch", "no request is made to ...") are
  statable.
-/

namespace AmIHome

/-- The UTF-8 bytes of a string, as naturals below 256 (Go's `[]byte(s)`). -/
def strBytes (s : String) : List Nat :=
  (s.data.flatMap String.utf8EncodeChar).map UInt8.toNat

theorem strBytes_lt (s : String) : ∀ b ∈ strBytes s, b < 256 := by
  intro b hb
  simp only [strBytes, List.mem_map] at hb
  obtain ⟨u, _, rfl⟩ := hb
  exact u.toNat_lt

/-! ## MAC canonicalizer (`internal/router`, `normalizeMAC` / `MatchMAC`)

Go iterates the bytes of the string, skipping `':'`, `'-'`, `'.'` and `' '`
(bytes 58, 45, 46, 32) and mapping `'A'..'Z'` (65..90) to lowercase by
adding 32. -/

/-- One byte of `normalizeMAC`'s keep-branch: uppercase ASCII is lowered. -/
def lowerByte (c : Nat) : Nat :=
  if 65 ≤ c ∧ c ≤ 90 then c + 32 else c

/-- Whether `normalizeMAC` drops this byte (the separators `: - .` and space). -/
def isSep (c : Nat) : Bool :=
  decide (c = 58 ∨ c = 45 ∨ c = 46 ∨ c = 32)

/-- The function `normalizeMAC` from the Go source: strip separators, lowercase ASCII
letters, pass everything else through, preserving order. -/
def normalizeMAC : List Nat → List Nat
  | [] => []
  | c :: rest =>
    if isSep c then normalizeMAC rest
    else lowerByte c :: normalizeMAC rest

/-- The function `MatchMAC` from the Go source: equality after normalization. -/
def MatchMAC (a b : List Nat) : Bool :=
  normalizeMAC a == normalizeMAC b

/-- ASCII uppercasing of one byte, the inverse direction of `lowerByte`;
used to state case-insensitivity. -/
def upperByte (c : Nat) : Nat :=
  if 97 ≤ c ∧ c ≤ 122 then c - 32 else c

/-- Byte list of an ASCII string literal (code points equal bytes). -/
def asciiBytes (s : String) : List Nat :=
  s.data.map Char.toNat

theorem normalizeMAC_idem (x : List Nat) :
    normalizeMAC (normalizeMAC x) = normalizeMAC x := by
  induction x with
  | nil => rfl
  | cons c rest ih =>
    by_cases hs : isSep c
    · simp [normalizeMAC, hs, ih]
    · have hk : isSep (lowerByte c) = false := by
        simp only [isSep, lowerByte, decide_eq_false_iff_not, decide_eq_true_eq] at hs ⊢
        split_ifs <;> omega
      have hl : lowerByte (lowerByte c) = lowerByte c := by
        simp only [lowerByte]
        split_ifs <;> omega
      simp [normalizeMAC, hs, hk, hl, ih]

theorem normalizeMAC_map_upper (x : List Nat) :
    normalizeMAC (x.map upperByte) = normalizeMAC x := by
  induction x with
  | nil => rfl
  | cons c rest ih =>
    by_cases hs : isSep c
    · have : isSep (upperByte c) = true := by
        simp only [isSep, upperByte, decide_eq_true_eq, decide_eq_false_iff_not] at hs ⊢
        split_ifs <;> omega
      simp [normalizeMAC, hs, this, ih]
    · have hs' : isSep (upperByte c) = false := by
        simp only [isSep, upperByte, decide_eq_false_iff_not, decide_eq_true_eq] at hs ⊢
        split_ifs <;> omega
      have : lowerByte (upperByte c) = lowerByte c := by
        simp only [lowerByte, upperByte]
        split_ifs <;> omega
      simp [normalizeMAC, hs, hs', this, ih]

theorem normalizeMAC_map_lower (x : List Nat) :
    normalizeMAC (x.map lowerByte) = normalizeMAC x := by
  induction x with
  | nil => rfl
  | cons c rest ih =>
    by_cases hs : isSep c
    · have : isSep (lowerByte c) = true := by
        simp only [isSep, lowerByte, decide_eq_true_eq, decide_eq_false_iff_not] at hs ⊢
        split_ifs <;> omega
      simp [normalizeMAC, hs, this, ih]
    · have hs' : isSep (lowerByte c) = false := by
        simp only [isSep, lowerByte, decide_eq_false_iff_not, decide_eq_true_eq] at hs ⊢
        split_ifs <;> omega
      have : lowerByte (lowerByte c) = lowerByte c := by
        simp only [lowerByte]
        split_ifs <;> omega
      simp [normalizeMAC, hs, hs', this, ih]

theorem normalizeMAC_sep_insert (a b : List Nat) (s : Nat) (hs : isSep s) :
    normalizeMAC (a ++ s :: b) = normalizeMAC (a ++ b) := by
  induction a with
  | nil => simp [normalizeMAC, hs]
  | cons c rest ih =>
    by_cases h : isSep c <;> simp [normalizeMAC, h, ih]

/-! ## Credential hasher (`pbkdf2Hex` in `internal/router/homestation.go`)

The Go function is
`hex.EncodeToString(pbkdf2.Key([]byte(password), []byte(salt), 1000, 16, sha256.New))`.
SHA-256 (FIPS 180-4), HMAC (RFC 2104) and PBKDF2 (RFC 2898) are embedded
executably over byte lists; all 32-bit words are `Nat`s reduced mod `2^32`
at each arithmetic step, and bytes are produced with explicit `% 256`. -/

/-- Right rotation of a 32-bit word below `2^32`. -/
def rotr32 (n x : Nat) : Nat :=
  ((x >>> n) ||| (x <<< (32 - n))) % 4294967296

/-- Bitwise complement of a 32-bit word below `2^32`. -/
def not32 (x : Nat) : Nat := x ^^^ 4294967295

/-- SHA-256 choice function. -/
def shaCh (x y z : Nat) : Nat := (x &&& y) ^^^ (not32 x &&& z)

/-- SHA-256 majority function. -/
def shaMaj (x y z : Nat) : Nat := (x &&& y) ^^^ (x &&& z) ^^^ (y &&& z)

/-- SHA-256 big sigma 0. -/
def bsig0 (x : Nat) : Nat := rotr32 2 x ^^^ rotr32 13 x ^^^ rotr32 22 x

/-- SHA-256 big sigma 1. -/
def bsig1 (x : Nat) : Nat := rotr32 6 x ^^^ rotr32 11 x ^^^ rotr32 25 x

/-- SHA-256 small sigma 0. -/
def ssig0 (x : Nat) : Nat := rotr32 7 x ^^^ rotr32 18 x ^^^ (x >>> 3)

/-- SHA-256 small sigma 1. -/
def ssig1 (x : Nat) : Nat := rotr32 17 x ^^^ rotr32 19 x ^^^ (x >>> 10)

/-- The 64 SHA-256 round constants. -/
def K64 : List Nat :=
  [1116352408, 1899447441, 3049323471, 3921009573, 961987163,
   1508970993, 2453635748, 2870763221, 3624381080, 310598401,
   607225278, 1426881987, 1925078388, 2162078206, 2614888103,
   3248222580, 3835390401, 4022224774, 264347078, 604807628,
   770255983, 1249150122, 1555081692, 1996064986, 2554220882,
   2821834349, 2952996808, 3210313671, 3336571891, 3584528711,
   113926993, 338241895, 666307205, 773529912, 1294757372,
   1396182291, 1695183700, 1986661051, 2177026350, 2456956037,
   2730485921, 2820302411, 3259730800, 3345764771, 3516065817,
   3600352804, 4094571909, 275423344, 430227734, 506948616,
   659060556, 883997877, 958139571, 1322822218, 1537002063,
   1747873779, 1955562222, 2024104815, 2227730452, 2361852424,
   2428436474, 2756734187, 3204031479, 3329325298]

/-- The eight SHA-256 working variables / chaining words. -/
structure Hash8 where
  a : Nat
  b : Nat
  c : Nat
  d : Nat
  e : Nat
  f : Nat
  g : Nat
  h : Nat
deriving Repr, DecidableEq

/-- The SHA-256 initial hash value. -/
def initH : Hash8 :=
  ⟨1779033703, 3144134277, 1013904242, 2773480762,
   1359893119, 2600822924, 528734635, 1541459225⟩

/-- Split a list into chunks of `n` (the last one possibly shorter). -/
def chunks (n : Nat) (l : List Nat) : List (List Nat) :=
  if h : l = [] ∨ n = 0 then []
  else l.take n :: chunks n (l.drop n)
termination_by l.length
decreasing_by
  push_neg at h
  have h1 : 0 < l.length := List.length_pos.mpr h.1
  simp only [List.length_drop]
  omega

/-- A big-endian 32-bit word from (up to) four bytes. -/
def word32OfBytes (b : List Nat) : Nat :=
  b.getD 0 0 * 16777216 + b.getD 1 0 * 65536 + b.getD 2 0 * 256 + b.getD 3 0

/-- The four big-endian bytes of a 32-bit word. -/
def w4 (w : Nat) : List Nat :=
  [w >>> 24 % 256, w >>> 16 % 256, w >>> 8 % 256, w % 256]

/-- The eight big-endian bytes of a 64-bit word (SHA-256 length field). -/
def w8 (n : Nat) : List Nat :=
  [n >>> 56 % 256, n >>> 48 % 256, n >>> 40 % 256, n >>> 32 % 256,
   n >>> 24 % 256, n >>> 16 % 256, n >>> 8 % 256, n % 256]

/-- One message-schedule extension step: append word `t` computed from
words `t-2`, `t-7`, `t-15`, `t-16`. -/
def schedStep (w : List Nat) : List Nat :=
  w ++ [(ssig1 (w.getD (w.length - 2) 0) + w.getD (w.length - 7) 0 +
         ssig0 (w.getD (w.length - 15) 0) + w.getD (w.length - 16) 0) % 4294967296]

/-- Iterate the schedule extension. -/
def schedRec : Nat → List Nat → List Nat
  | 0, w => w
  | n + 1, w => schedRec n (schedStep w)

/-- Extend the 16 block words to the 64 schedule words. -/
def schedule (ws : List Nat) : List Nat := schedRec 48 ws

/-- One SHA-256 compression round, fed a (round constant, schedule word) pair. -/
def shaRound (s : Hash8) (kw : Nat × Nat) : Hash8 :=
  let t1 := (s.h + bsig1 s.e + shaCh s.e s.f s.g + kw.1 + kw.2) % 4294967296
  let t2 := (bsig0 s.a + shaMaj s.a s.b s.c) % 4294967296
  ⟨(t1 + t2) % 4294967296, s.a, s.b, s.c, (s.d + t1) % 4294967296, s.e, s.f, s.g⟩

/-- Compress one 64-byte block into the chaining state. -/
def processBlock (st : Hash8) (block : List Nat) : Hash8 :=
  let ws := schedule ((chunks 4 block).map word32OfBytes)
  let r := (K64.zip ws).foldl shaRound st
  ⟨(st.a + r.a) % 4294967296, (st.b + r.b) % 4294967296,
   (st.c + r.c) % 4294967296, (st.d + r.d) % 4294967296,
   (st.e + r.e) % 4294967296, (st.f + r.f) % 4294967296,
   (st.g + r.g) % 4294967296, (st.h + r.h) % 4294967296⟩

/-- SHA-256 padding: `0x80`, zeros to 56 mod 64, then the bit length. -/
def padBytes (msg : List Nat) : List Nat :=
  msg ++ 128 :: List.replicate ((64 - (msg.length + 9) % 64) % 64) 0 ++ w8 (8 * msg.length)

/-- SHA-256 of a byte list, as its 32 digest bytes. -/
def sha256 (msg : List Nat) : List Nat :=
  let fin := (chunks 64 (padBytes msg)).foldl processBlock initH
  w4 fin.a ++ w4 fin.b ++ w4 fin.c ++ w4 fin.d ++
  w4 fin.e ++ w4 fin.f ++ w4 fin.g ++ w4 fin.h

theorem sha256_length (msg : List Nat) : (sha256 msg).length = 32 := by
  simp [sha256, w4]

/-- HMAC key preparation: hash long keys, zero-pad to the 64-byte block. -/
def hmacKeyPad (key : List Nat) : List Nat :=
  let k := if 64 < key.length then sha256 key else key
  k ++ List.replicate (64 - k.length) 0

/-- HMAC-SHA256 (RFC 2104): `H((k xor opad) ++ H((k xor ipad) ++ msg))`. -/
def hmacSha256 (key msg : List Nat) : List Nat :=
  let k := hmacKeyPad key
  sha256 ((k.map (fun b => b ^^^ 92)) ++ sha256 ((k.map (fun b => b ^^^ 54)) ++ msg))

theorem hmacSha256_length (key msg : List Nat) :
    (hmacSha256 key msg).length = 32 := by
  simp [hmacSha256, sha256_length]

/-- Pointwise xor of two byte lists (truncating to the shorter). -/
def xorBytes (a b : List Nat) : List Nat :=
  List.zipWith (fun x y => x ^^^ y) a b

/-- The PBKDF2 accumulation loop: `n` further HMAC iterations, xor-folded
into the running block `t`. -/
def pbkdf2Iter (password : List Nat) : Nat → List Nat → List Nat → List Nat
  | 0, t, _ => t
  | n + 1, t, u =>
    let u' := hmacSha256 password u
    pbkdf2Iter password n (xorBytes t u') u'

/-- One PBKDF2 output block `F(password, salt, iter, blockIdx)`. -/
def pbkdf2Block (password salt : List Nat) (iter blockIdx : Nat) : List Nat :=
  let u1 := hmacSha256 password (salt ++ w4 blockIdx)
  pbkdf2Iter password (iter - 1) u1 u1

/-- PBKDF2 with HMAC-SHA256 (what `pbkdf2.Key(..., sha256.New)` computes):
concatenate blocks `F(..., 1), F(..., 2), ...` and truncate to `keyLen`. -/
def pbkdf2Key (password salt : List Nat) (iter keyLen : Nat) : List Nat :=
  ((List.range ((keyLen + 31) / 32)).flatMap
    (fun i => pbkdf2Block password salt iter (i + 1))).take keyLen

theorem pbkdf2Iter_length (password : List Nat) (n : Nat) :
    ∀ t u, t.length = 32 → (pbkdf2Iter password n t u).length = 32 := by
  induction n with
  | zero => intro t u ht; simpa [pbkdf2Iter]
  | succ n ih =>
    intro t u ht
    simp only [pbkdf2Iter]
    apply ih
    simp [xorBytes, hmacSha256_length, ht]

theorem pbkdf2Block_length (password salt : List Nat) (iter blockIdx : Nat) :
    (pbkdf2Block password salt iter blockIdx).length = 32 := by
  simp only [pbkdf2Block]
  exact pbkdf2Iter_length _ _ _ _ (hmacSha256_length _ _)

theorem pbkdf2Key_length_16 (password salt : List Nat) (iter : Nat) :
    (pbkdf2Key password salt iter 16).length = 16 := by
  simp [pbkdf2Key, List.range_succ, pbkdf2Block_length]

/-- The 16 hex digits, lowercase, in Go's `encoding/hex` table order. -/
def hexTable : List Char := "0123456789abcdef".data

/-- Hex digit for a nibble. -/
def nibbleChar (n : Nat) : Char := hexTable.getD n '0'

/-- Lowercase hex encoding of a byte list (`hex.EncodeToString`). -/
def hexEncode (bytes : List Nat) : String :=
  String.mk (bytes.flatMap (fun b => [nibbleChar (b >>> 4), nibbleChar (b % 16)]))

/-- The function `pbkdf2Hex` from the Go source: PBKDF2-SHA256, 1000 iterations, 16-byte
key, rendered as lowercase hex. -/
def pbkdf2Hex (password salt : String) : String :=
  hexEncode (pbkdf2Key (strBytes password) (strBytes salt) 1000 16)

theorem nibbleChar_mem (n : Nat) : nibbleChar n ∈ hexTable := by
  by_cases h : n < 16
  · have hl : n < hexTable.length := by simpa [hexTable] using h
    have hg : hexTable.getD n '0' = hexTable[n] := by
      simp [List.getD_eq_getElem?_getD, List.getElem?_eq_getElem hl]
    rw [nibbleChar, hg]
    exact List.getElem_mem hl
  · have : hexTable.getD n '0' = '0' := by
      apply List.getD_eq_default
      simpa [hexTable] using h
    rw [nibbleChar, this]
    decide

theorem hexEncode_data_length (bytes : List Nat) :
    (hexEncode bytes).data.length = 2 * bytes.length := by
  induction bytes with
  | nil => rfl
  | cons b rest ih =>
    simp only [hexEncode, String.mk] at ih ⊢
    simp only [List.flatMap_cons, List.length_append, List.length_cons,
      List.length_nil] at ih ⊢
    omega

theorem hexEncode_mem_hexTable (bytes : List Nat) :
    ∀ c ∈ (hexEncode bytes).data, c ∈ hexTable := by
  intro c hc
  simp only [hexEncode, List.mem_flatMap, List.mem_cons, List.not_mem_nil,
    or_false] at hc
  obtain ⟨b, _, hc⟩ := hc
  rcases hc with rfl | rfl <;> exact nibbleChar_mem _

attribute [irreducible] sha256 hmacSha256 pbkdf2Iter pbkdf2Block pbkdf2Key pbkdf2Hex

/-! ## Substring test (`strings.Contains`)

`strings.Contains(s, substr)` reports whether `substr` occurs in `s`. The
only needle the code uses, `"MSG_LOGIN_150"`, is ASCII, for which Go's
byte-level containment coincides with character-level containment. -/

/-- Does `needle` occur as a contiguous run of `hay`? -/
def containsAux (needle : List Char) : List Char → Bool
  | [] => needle.isPrefixOf []
  | c :: rest => needle.isPrefixOf (c :: rest) || containsAux needle rest

/-- Go `strings.Contains s substr`, on the characters of the strings. -/
def containsSub (s substr : String) : Bool :=
  containsAux substr.data s.data

theorem containsAux_append_self (n pre : List Char) :
    containsAux n (pre ++ n) = true := by
  induction pre with
  | nil =>
    cases n with
    | nil => rfl
    | cons c r =>
      simp only [List.nil_append, containsAux, Bool.or_eq_true]
      exact Or.inl ( List.isPrefixOf_iff_prefix.mpr (List.prefix_refl _))
  | cons p rest ih =>
    simp [containsAux, ih]

/-! ## Parsed-response views and the transport environment

`doPostForm`/`doGet` return either a transport error (`http.Client.Do`
failing) or the response body bytes; the code then runs `json.Unmarshal`
on them. The environment below records, per endpoint, that transport
outcome together with what unmarshalling the body yields:

* salt request — `json.Unmarshal(body, &saltResp)`: `.error ()` when the
  body is not JSON matching the struct, otherwise the struct, with absent
  fields left at their zero value `""`;
* credential submit — `json.Unmarshal(body, &map[string]any)`: `none`
  when the body is not a JSON object, otherwise the two string-typed
  fields the code inspects (`jr["error"].(string)`, `jr["message"].(string)`),
  `none` for a field that is absent or not a string;
* menu / logout — the body is discarded, only the transport outcome exists;
* host table — `json.Unmarshal(body, &hostTblResp)` as for the salt. -/

/-- The salt response struct (`saltResp` in the Go source); absent JSON
fields unmarshal to `""`. -/
structure SaltResp where
  error : String
  salt : String
  saltWebUI : String
deriving DecidableEq, Repr

/-- The string-typed fields of the loosely parsed credential-submit
response object that `tryLogin` inspects. -/
structure LoginObj where
  errorField : Option String
  messageField : Option String
deriving DecidableEq, Repr

/-- One host record of the host-table envelope (`hostTblResp.Data.HostTbl`). -/
structure HostEntry where
  physaddress : String
  ipaddress : String
  hostname : String
  active : String
deriving DecidableEq, Repr

/-- The host-table envelope (`hostTblResp` in the Go source). -/
structure HostTblResp where
  error : String
  message : String
  hostTbl : List HostEntry
  token : String
deriving DecidableEq, Repr

/-- The structure `Device` from the Go source. -/
structure Device where
  MAC : String
  IP : String
  Hostname : String
  Active : Bool
deriving DecidableEq, Repr

/-- Client identity (`HomeStationClient.user` / `.pass`); the base URL only
selects the host and does not influence the modelled control flow. -/
structure Client where
  user : String
  pass : String
deriving DecidableEq, Repr

deriving instance DecidableEq for Except

/-- Mock transport: per endpoint, the transport outcome and the parsed view
of the body (see the section comment). -/
structure Env where
  saltPost : Except String (Except Unit SaltResp)
  credPost : Except String (Option LoginObj)
  menuGet : Except String Unit
  hostGet : Except String (Except Unit HostTblResp)
  logoutPost : Except String Unit
deriving DecidableEq, Repr

/-- Observable actions of a run: outgoing requests, in order, plus calls of
the credential hasher `pbkdf2Hex` with their arguments. -/
inductive Ev where
  | postLoginSeek
  | hashCall (secret salt : String)
  | postLoginCred (password : String)
  | getMenu
  | getHostTbl
  | postLogout
deriving DecidableEq, Repr

/-- The error values `ListConnected` can return, one constructor per
`errors.New`/`fmt.Errorf` site in the Go source. -/
inductive RErr where
  | saltTransport (e : String)
  | saltParse
  | noSalt
  | noSaltWebUI
  | credTransport (e : String)
  | blocked (msg : String)
  | rejected
  | hostTransport (e : String)
  | hostParse
  | hostStatus (s : String)
deriving DecidableEq, Repr

/-- The message text of each error, as the Go source formats it. For the
wrapping sites (`%w`) only the repo-authored prefix is rendered; the
wrapped detail comes from the transport or `encoding/json`. -/
def renderErr : RErr → String
  | .saltTransport e => "failed requesting salt: " ++ e
  | .saltParse => "failed parsing salt response"
  | .noSalt => "no salt returned from router"
  | .noSaltWebUI => "no saltwebui returned from router"
  | .credTransport e => "failed posting hashed password: " ++ e
  | .blocked msg => "An active session exists. Logout first. " ++ msg
  | .rejected => "login failed with provided credentials"
  | .hostTransport e => "failed fetching host table: " ++ e
  | .hostParse => "failed parsing host table JSON"
  | .hostStatus s => "host table returned error: " ++ s

/-- Whether an error is the missing-challenge-data condition
(`AuthProtocolError` in the spec's taxonomy). -/
def isAuthProtocolErr : RErr → Bool
  | .noSalt => true
  | .noSaltWebUI => true
  | _ => false

/-! ## The authentication protocol, device fetch and facade

Each function returns the trace of events it performs together with the
value the Go function returns, mirroring `homestation.go` line by line. -/

/-- The function `tryLogin` from the Go source, over the mock transport. -/
def tryLogin (c : Client) (env : Env) : List Ev × Except RErr Unit :=
  match env.saltPost with
  | .error e => ([.postLoginSeek], .error (.saltTransport e))
  | .ok (.error _) => ([.postLoginSeek], .error .saltParse)
  | .ok (.ok sr) =>
    if sr.salt = "" then ([.postLoginSeek], .error .noSalt)
    else if sr.saltWebUI = "" then ([.postLoginSeek], .error .noSaltWebUI)
    else
      let hash1 := pbkdf2Hex c.pass sr.salt
      let finalHash := pbkdf2Hex hash1 sr.saltWebUI
      let pre := [Ev.postLoginSeek, Ev.hashCall c.pass sr.salt,
                  Ev.hashCall hash1 sr.saltWebUI, Ev.postLoginCred finalHash]
      match env.credPost with
      | .error e => (pre, .error (.credTransport e))
      | .ok none => (pre, .error .rejected)
      | .ok (some obj) =>
        if obj.errorField = some "ok" then
          (pre ++ [Ev.getMenu], .ok ())
        else
          match obj.messageField with
          | some msg =>
            if containsSub msg "MSG_LOGIN_150" then (pre, .error (.blocked msg))
            else (pre, .error .rejected)
          | none => (pre, .error .rejected)

/-- The loop body of `fetchHostTbl`: one host record to one `Device`;
`Active` is the string comparison `e.Active == "true"`. -/
def devOfEntry (e : HostEntry) : Device :=
  { MAC := e.physaddress, IP := e.ipaddress, Hostname := e.hostname,
    Active := e.active == "true" }

/-- The function `fetchHostTbl` from the Go source, over the mock transport. -/
def fetchHostTbl (env : Env) : List Ev × Except RErr (List Device) :=
  match env.hostGet with
  | .error e => ([.getHostTbl], .error (.hostTransport e))
  | .ok (.error _) => ([.getHostTbl], .error .hostParse)
  | .ok (.ok r) =>
    if r.error ≠ "ok" then ([.getHostTbl], .error (.hostStatus r.error))
    else ([.getHostTbl], .ok (r.hostTbl.map devOfEntry))

/-- The method `ListConnected` from the Go source: login, fetch, best-effort logout
(the logout response, like the menu response, is read and discarded). -/
def listConnected (c : Client) (env : Env) : List Ev × Except RErr (List Device) :=
  match tryLogin c env with
  | (tr, .error e) => (tr, .error e)
  | (tr, .ok _) =>
    let f := fetchHostTbl env
    (tr ++ f.1 ++ [Ev.postLogout], f.2)

/-! ## Structural lemmas about the traces -/

theorem fetchHostTbl_fst (env : Env) : (fetchHostTbl env).1 = [Ev.getHostTbl] := by
  unfold fetchHostTbl
  split
  · rfl
  · rfl
  · split <;> rfl

theorem postLogout_nmem_tryLogin (c : Client) (env : Env) :
    Ev.postLogout ∉ (tryLogin c env).1 := by
  simp only [tryLogin]
  repeat' split
  all_goals simp

theorem getHostTbl_nmem_tryLogin (c : Client) (env : Env) :
    Ev.getHostTbl ∉ (tryLogin c env).1 := by
  simp only [tryLogin]
  repeat' split
  all_goals simp

/-- Sample environment: login succeeds, the host table has one record. -/
def envHappy : Env :=
  { saltPost := .ok (.ok ⟨"ok", "abc", "def"⟩),
    credPost := .ok (some ⟨some "ok", none⟩),
    menuGet := .ok (),
    hostGet := .ok (.ok ⟨"ok", "", [⟨"AA:BB:CC:DD:EE:FF", "192.168.0.5", "phone", "true"⟩], "tok"⟩),
    logoutPost := .ok () }

/-- Sample environment: login succeeds, fetching the host table fails. -/
def envFetchFail : Env :=
  { saltPost := .ok (.ok ⟨"ok", "abc", "def"⟩),
    credPost := .ok (some ⟨some "ok", none⟩),
    menuGet := .ok (),
    hostGet := .error "connection reset",
    logoutPost := .error "connection reset" }

/-- Sample environment: the credential submit is rejected. -/
def envRejected : Env :=
  { saltPost := .ok (.ok ⟨"ok", "abc", "def"⟩),
    credPost := .ok (some ⟨some "fail", some "bad credentials"⟩),
    menuGet := .ok (),
    hostGet := .ok (.ok ⟨"ok", "", [], "tok"⟩),
    logoutPost := .ok () }

/-! ## Claims -/

/-- C1: whenever the authentication protocol succeeds, `ListConnected`
performs the device fetch and then attempts the logout POST exactly once,
after the fetch, whatever the fetch outcome was; the fetch step's result is
returned unchanged, and the run's result does not depend on how the logout
request fares. -/
theorem C1_listConnected_always_logs_out (c : Client) (env : Env)
    (h : (tryLogin c env).2 = .ok ()) :
    (listConnected c env).1 = (tryLogin c env).1 ++ [Ev.getHostTbl, Ev.postLogout]
    ∧ (listConnected c env).2 = (fetchHostTbl env).2
    ∧ (listConnected c env).1.count Ev.postLogout = 1
    ∧ (∀ l₁ l₂ : Except String Unit,
        listConnected c { env with logoutPost := l₁ } =
        listConnected c { env with logoutPost := l₂ }) := by
  have hnl := postLogout_nmem_tryLogin c env
  rcases hE : tryLogin c env with ⟨tr, res⟩
  rw [hE] at h hnl
  simp only at h hnl
  subst h
  refine ⟨?_, ?_, ?_, ?_⟩
  · simp [listConnected, hE, fetchHostTbl_fst]
  · simp [listConnected, hE]
  · simp only [listConnected, hE, fetchHostTbl_fst]
    rw [List.count_append, List.count_append, List.count_eq_zero.mpr hnl]
    rfl
  · intro l₁ l₂
    rcases env with ⟨sp, cp, mg, hg, lp⟩
    rfl

/-- C1 witness: a run with a failing fetch still logs out once, after the
fetch, and returns the fetch error unchanged. -/
theorem C1_witness :
    (tryLogin ⟨"admin", "pw"⟩ envFetchFail).2 = .ok ()
    ∧ (listConnected ⟨"admin", "pw"⟩ envFetchFail).1 =
        (tryLogin ⟨"admin", "pw"⟩ envFetchFail).1 ++ [Ev.getHostTbl, Ev.postLogout]
    ∧ (listConnected ⟨"admin", "pw"⟩ envFetchFail).2 = (fetchHostTbl envFetchFail).2
    ∧ (listConnected ⟨"admin", "pw"⟩ envFetchFail).1.count Ev.postLogout = 1
    ∧ listConnected ⟨"admin", "pw"⟩ { envFetchFail with logoutPost := .error "refused" } =
      listConnected ⟨"admin", "pw"⟩ { envFetchFail with logoutPost := .ok () } := by
  have T := C1_listConnected_always_logs_out ⟨"admin", "pw"⟩ envFetchFail (by decide)
  exact ⟨by decide, T.1, T.2.1, T.2.2.1, T.2.2.2 (.error "refused") (.ok ())⟩

/-- C2: whenever the authentication protocol fails, `ListConnected` returns
exactly that login error (and no devices), and the run performs no host-table
request and no logout request. -/
theorem C2_login_failure_short_circuits (c : Client) (env : Env) (er : RErr)
    (h : (tryLogin c env).2 = .error er) :
    listConnected c env = ((tryLogin c env).1, .error er)
    ∧ Ev.getHostTbl ∉ (listConnected c env).1
    ∧ Ev.postLogout ∉ (listConnected c env).1 := by
  have hnl := postLogout_nmem_tryLogin c env
  have hnh := getHostTbl_nmem_tryLogin c env
  rcases hE : tryLogin c env with ⟨tr, res⟩
  rw [hE] at h hnl hnh
  simp only at h hnl hnh
  subst h
  have hl : listConnected c env = (tr, .error er) := by
    simp [listConnected, hE]
  rw [hl]
  exact ⟨rfl, hnh, hnl⟩

/-- C2 witness: with rejected credentials the whole run is the login trace
and the login error, with no host-table and no logout request. -/
theorem C2_witness :
    (tryLogin ⟨"admin", "pw"⟩ envRejected).2 = .error .rejected
    ∧ (listConnected ⟨"admin", "pw"⟩ envRejected =
        ((tryLogin ⟨"admin", "pw"⟩ envRejected).1, .error .rejected)
      ∧ Ev.getHostTbl ∉ (listConnected ⟨"admin", "pw"⟩ envRejected).1
      ∧ Ev.postLogout ∉ (listConnected ⟨"admin", "pw"⟩ envRejected).1) :=
  ⟨by decide, C2_login_failure_short_circuits ⟨"admin", "pw"⟩ envRejected .rejected (by decide)⟩

/-- Sample environment: login blocked by an existing session
(`MSG_LOGIN_150` in the router's message). -/
def envBlocked : Env :=
  { saltPost := .ok (.ok ⟨"ok", "abc", "def"⟩),
    credPost := .ok (some ⟨some "fail", some "MSG_LOGIN_150 please logout"⟩),
    menuGet := .ok (),
    hostGet := .ok (.ok ⟨"ok", "", [], "tok"⟩),
    logoutPost := .ok () }

/-- C3: classification of a parsed credential-submit response. `error == "ok"`
means success; otherwise a message containing `MSG_LOGIN_150` yields the
blocked error whose rendered text contains the router's raw message;
otherwise the generic rejection. -/
theorem C3_login_response_classification (c : Client) (env : Env)
    (sr : SaltResp) (obj : LoginObj)
    (hsalt : env.saltPost = .ok (.ok sr))
    (hs : sr.salt ≠ "") (hw : sr.saltWebUI ≠ "")
    (hcred : env.credPost = .ok (some obj)) :
    (obj.errorField = some "ok" → (tryLogin c env).2 = .ok ())
    ∧ (obj.errorField ≠ some "ok" →
        ∀ msg, obj.messageField = some msg →
          containsSub msg "MSG_LOGIN_150" = true →
          (tryLogin c env).2 = .error (.blocked msg)
          ∧ containsSub (renderErr (.blocked msg)) msg = true)
    ∧ (obj.errorField ≠ some "ok" →
        (∀ msg, obj.messageField = some msg →
          containsSub msg "MSG_LOGIN_150" = false) →
        (tryLogin c env).2 = .error .rejected
        ∧ renderErr .rejected = "login failed with provided credentials") := by
  refine ⟨?_, ?_, ?_⟩
  · intro hok
    simp [tryLogin, hsalt, hs, hw, hcred, hok]
  · intro hne msg hmsg hc
    refine ⟨?_, ?_⟩
    · simp [tryLogin, hsalt, hs, hw, hcred, hne, hmsg, hc]
    · simp only [renderErr, containsSub, String.data_append]
      exact containsAux_append_self _ _
  · intro hne hno
    rcases hm : obj.messageField with _ | msg
    · exact ⟨by simp [tryLogin, hsalt, hs, hw, hcred, hne, hm], rfl⟩
    · have hc := hno msg hm
      exact ⟨by simp [tryLogin, hsalt, hs, hw, hcred, hne, hm, hc], rfl⟩

/-- C3 witness: the three classifications at concrete responses — success,
blocked with the raw message surfaced, and the generic rejection. -/
theorem C3_witness :
    ((tryLogin ⟨"admin", "pw"⟩ envHappy).2 = .ok ())
    ∧ ((tryLogin ⟨"admin", "pw"⟩ envBlocked).2 =
          .error (.blocked "MSG_LOGIN_150 please logout")
        ∧ containsSub (renderErr (.blocked "MSG_LOGIN_150 please logout"))
            "MSG_LOGIN_150 please logout" = true)
    ∧ ((tryLogin ⟨"admin", "pw"⟩ envRejected).2 = .error .rejected
        ∧ renderErr .rejected = "login failed with provided credentials") := by
  refine ⟨?_, ?_, ?_⟩
  · exact (C3_login_response_classification ⟨"admin", "pw"⟩ envHappy
      ⟨"ok", "abc", "def"⟩ ⟨some "ok", none⟩ rfl (by decide) (by decide) rfl).1 rfl
  · exact (C3_login_response_classification ⟨"admin", "pw"⟩ envBlocked
      ⟨"ok", "abc", "def"⟩ ⟨some "fail", some "MSG_LOGIN_150 please logout"⟩
      rfl (by decide) (by decide) rfl).2.1 (by decide)
      "MSG_LOGIN_150 please logout" rfl (by decide)
  · exact (C3_login_response_classification ⟨"admin", "pw"⟩ envRejected
      ⟨"ok", "abc", "def"⟩ ⟨some "fail", some "bad credentials"⟩
      rfl (by decide) (by decide) rfl).2.2 (by decide)
      (by intro msg hm; injection hm with h; subst h; decide)

/-- Does the run end in one of the two missing-challenge-data errors? -/
def resultIsAuthProtocolErr (r : Except RErr Unit) : Bool :=
  match r with
  | .error e => isAuthProtocolErr e
  | .ok _ => false

/-- Sample environment: the salt response carries an empty `salt`. -/
def envEmptySalt : Env :=
  { saltPost := .ok (.ok ⟨"ok", "", "xyz"⟩),
    credPost := .ok (some ⟨some "ok", none⟩),
    menuGet := .ok (),
    hostGet := .ok (.ok ⟨"ok", "", [], "tok"⟩),
    logoutPost := .ok () }

/-- C4: an absent or empty `salt` or `saltwebui` (absent JSON fields
unmarshal to `""`) fails the login with a missing-challenge-data error
before any hash computation and before any credential-submit request. -/
theorem C4_missing_challenge_data (c : Client) (env : Env) (sr : SaltResp)
    (hsalt : env.saltPost = .ok (.ok sr))
    (hmiss : sr.salt = "" ∨ sr.saltWebUI = "") :
    (tryLogin c env).1 = [Ev.postLoginSeek]
    ∧ resultIsAuthProtocolErr (tryLogin c env).2 = true
    ∧ (∀ s t, Ev.hashCall s t ∉ (tryLogin c env).1)
    ∧ (∀ p, Ev.postLoginCred p ∉ (tryLogin c env).1) := by
  by_cases h0 : sr.salt = ""
  · refine ⟨?_, ?_, ?_, ?_⟩ <;>
      simp [tryLogin, hsalt, h0, resultIsAuthProtocolErr, isAuthProtocolErr]
  · rcases hmiss with h | h
    · exact absurd h h0
    · refine ⟨?_, ?_, ?_, ?_⟩ <;>
        simp [tryLogin, hsalt, h0, h, resultIsAuthProtocolErr, isAuthProtocolErr]

/-- C4 witness: the spec's example salt response (empty `salt`, non-empty
`saltwebui`) gives the missing-challenge-data failure with no hash call and
no credential submit in the trace. -/
theorem C4_witness :
    (envEmptySalt.saltPost = .ok (.ok ⟨"ok", "", "xyz"⟩))
    ∧ (tryLogin ⟨"admin", "pw"⟩ envEmptySalt).1 = [Ev.postLoginSeek]
    ∧ resultIsAuthProtocolErr (tryLogin ⟨"admin", "pw"⟩ envEmptySalt).2 = true
    ∧ Ev.hashCall "pw" "" ∉ (tryLogin ⟨"admin", "pw"⟩ envEmptySalt).1
    ∧ Ev.postLoginCred "x" ∉ (tryLogin ⟨"admin", "pw"⟩ envEmptySalt).1 := by
  have T := C4_missing_challenge_data ⟨"admin", "pw"⟩ envEmptySalt
    ⟨"ok", "", "xyz"⟩ rfl (Or.inl rfl)
  exact ⟨rfl, T.1, T.2.1, T.2.2.1 "pw" "", T.2.2.2 "x"⟩

/-- C5: on a credential-submit response with `error == "ok"`, the protocol
performs exactly one session-menu GET, as its last action before reporting
success, and the reported outcome does not depend on how that GET fares. -/
theorem C5_session_activation (c : Client) (env : Env)
    (sr : SaltResp) (obj : LoginObj)
    (hsalt : env.saltPost = .ok (.ok sr))
    (hs : sr.salt ≠ "") (hw : sr.saltWebUI ≠ "")
    (hcred : env.credPost = .ok (some obj))
    (hok : obj.errorField = some "ok") :
    (tryLogin c env).2 = .ok ()
    ∧ (tryLogin c env).1 =
        [Ev.postLoginSeek, Ev.hashCall c.pass sr.salt,
         Ev.hashCall (pbkdf2Hex c.pass sr.salt) sr.saltWebUI,
         Ev.postLoginCred (pbkdf2Hex (pbkdf2Hex c.pass sr.salt) sr.saltWebUI),
         Ev.getMenu]
    ∧ (tryLogin c env).1.count Ev.getMenu = 1
    ∧ (∀ m₁ m₂ : Except String Unit,
        tryLogin c { env with menuGet := m₁ } =
        tryLogin c { env with menuGet := m₂ }) := by
  have htr : tryLogin c env =
      ([Ev.postLoginSeek, Ev.hashCall c.pass sr.salt,
        Ev.hashCall (pbkdf2Hex c.pass sr.salt) sr.saltWebUI,
        Ev.postLoginCred (pbkdf2Hex (pbkdf2Hex c.pass sr.salt) sr.saltWebUI),
        Ev.getMenu], .ok ()) := by
    simp [tryLogin, hsalt, hs, hw, hcred, hok]
  refine ⟨?_, ?_, ?_, ?_⟩
  · rw [htr]
  · rw [htr]
  · rw [htr]
    simp [List.count_cons]
  · intro m₁ m₂
    rcases env with ⟨sp, cp, mg, hg, lp⟩
    rfl

/-- C5 witness: the happy-path environment, with the menu GET's outcome
flipped to a failure on one side of the invariance equation. -/
theorem C5_witness :
    (tryLogin ⟨"admin", "pw"⟩ envHappy).2 = .ok ()
    ∧ (tryLogin ⟨"admin", "pw"⟩ envHappy).1 =
        [Ev.postLoginSeek, Ev.hashCall "pw" "abc",
         Ev.hashCall (pbkdf2Hex "pw" "abc") "def",
         Ev.postLoginCred (pbkdf2Hex (pbkdf2Hex "pw" "abc") "def"),
         Ev.getMenu]
    ∧ (tryLogin ⟨"admin", "pw"⟩ envHappy).1.count Ev.getMenu = 1
    ∧ tryLogin ⟨"admin", "pw"⟩ { envHappy with menuGet := .error "timeout" } =
      tryLogin ⟨"admin", "pw"⟩ { envHappy with menuGet := .ok () } := by
  have T := C5_session_activation ⟨"admin", "pw"⟩ envHappy
    ⟨"ok", "abc", "def"⟩ ⟨some "ok", none⟩ rfl (by decide) (by decide) rfl rfl
  exact ⟨T.1, T.2.1, T.2.2.1, T.2.2.2 (.error "timeout") (.ok ())⟩

/-- The credential-hasher calls recorded in a trace, with their
(secret, salt) arguments, in order. -/
def hashEvents (t : List Ev) : List (String × String) :=
  t.filterMap (fun e =>
    match e with
    | .hashCall a b => some (a, b)
    | _ => none)

theorem tryLogin_hashEvents (c : Client) (env : Env) (sr : SaltResp)
    (hsalt : env.saltPost = .ok (.ok sr))
    (hs : sr.salt ≠ "") (hw : sr.saltWebUI ≠ "") :
    hashEvents (tryLogin c env).1 =
      [(c.pass, sr.salt), (pbkdf2Hex c.pass sr.salt, sr.saltWebUI)]
    ∧ Ev.postLoginCred (pbkdf2Hex (pbkdf2Hex c.pass sr.salt) sr.saltWebUI) ∈
        (tryLogin c env).1 := by
  rcases hc : env.credPost with e | o
  · constructor <;> simp [tryLogin, hsalt, hs, hw, hc, hashEvents]
  · rcases o with _ | obj
    · constructor <;> simp [tryLogin, hsalt, hs, hw, hc, hashEvents]
    · by_cases hok : obj.errorField = some "ok"
      · constructor <;> simp [tryLogin, hsalt, hs, hw, hc, hok, hashEvents]
      · rcases hm : obj.messageField with _ | msg
        · constructor <;> simp [tryLogin, hsalt, hs, hw, hc, hok, hm, hashEvents]
        · by_cases hcon : containsSub msg "MSG_LOGIN_150" = true
          · constructor <;> simp [tryLogin, hsalt, hs, hw, hc, hok, hm, hcon, hashEvents]
          · rw [Bool.not_eq_true] at hcon
            constructor <;> simp [tryLogin, hsalt, hs, hw, hc, hok, hm, hcon, hashEvents]

/-- C6: the credential hasher is the lowercase-hex rendering of PBKDF2 over
SHA-256 with 1000 iterations and a 16-byte key; its output has exactly 32
characters, all lowercase hex digits; it is deterministic; and a login run
applies it twice, first to (password, salt), then to (that hash, saltwebui). -/
theorem C6_deriveHash_contract (secret salt : String) :
    pbkdf2Hex secret salt =
      hexEncode (pbkdf2Key (strBytes secret) (strBytes salt) 1000 16)
    ∧ (pbkdf2Hex secret salt).length = 32
    ∧ (pbkdf2Hex secret salt).data.all (fun ch => hexTable.contains ch) = true
    ∧ (∀ s₂ t₂, s₂ = secret → t₂ = salt →
        pbkdf2Hex s₂ t₂ = pbkdf2Hex secret salt)
    ∧ (∀ (c : Client) (env : Env) (sr : SaltResp),
        env.saltPost = .ok (.ok sr) → sr.salt ≠ "" → sr.saltWebUI ≠ "" →
        hashEvents (tryLogin c env).1 =
          [(c.pass, sr.salt), (pbkdf2Hex c.pass sr.salt, sr.saltWebUI)]) := by
  refine ⟨by rw [pbkdf2Hex], ?_, ?_, ?_, ?_⟩
  · show (pbkdf2Hex secret salt).data.length = 32
    rw [pbkdf2Hex, hexEncode_data_length, pbkdf2Key_length_16]
  · rw [List.all_eq_true]
    intro ch hch
    rw [pbkdf2Hex] at hch
    exact List.elem_iff.mpr
      (hexEncode_mem_hexTable (pbkdf2Key (strBytes secret) (strBytes salt) 1000 16) ch hch)
  · intro s₂ t₂ h₂ h₃
    rw [h₂, h₃]
  · intro c env sr hsalt hs hw
    exact (tryLogin_hashEvents c env sr hsalt hs hw).1

/-- C6 witness: the contract at the concrete pair ("pw", "abc") and the
double application of the hasher in the happy-path login run. -/
theorem C6_witness :
    pbkdf2Hex "pw" "abc" =
      hexEncode (pbkdf2Key (strBytes "pw") (strBytes "abc") 1000 16)
    ∧ (pbkdf2Hex "pw" "abc").length = 32
    ∧ (pbkdf2Hex "pw" "abc").data.all (fun ch => hexTable.contains ch) = true
    ∧ pbkdf2Hex "pw" "abc" = pbkdf2Hex "pw" "abc"
    ∧ hashEvents (tryLogin ⟨"admin", "pw"⟩ envHappy).1 =
        [("pw", "abc"), (pbkdf2Hex "pw" "abc", "def")] := by
  have T := C6_deriveHash_contract "pw" "abc"
  exact ⟨T.1, T.2.1, T.2.2.1, T.2.2.2.1 "pw" "abc" rfl rfl,
    T.2.2.2.2 ⟨"admin", "pw"⟩ envHappy ⟨"ok", "abc", "def"⟩ rfl (by decide) (by decide)⟩

/-- C7: a host-table envelope with `error == "ok"` maps 1:1, in order, each
host record to a `Device` copying `physaddress`, `ipaddress`, `hostname`,
with `Active` true exactly for the literal string `"true"`; an empty host
list yields an empty device list and no error. -/
theorem C7_host_table_mapping (env : Env) (r : HostTblResp)
    (hhost : env.hostGet = .ok (.ok r)) (hok : r.error = "ok") :
    (fetchHostTbl env).2 = .ok (r.hostTbl.map devOfEntry)
    ∧ (∀ e : HostEntry,
        (devOfEntry e).MAC = e.physaddress
        ∧ (devOfEntry e).IP = e.ipaddress
        ∧ (devOfEntry e).Hostname = e.hostname
        ∧ ((devOfEntry e).Active = true ↔ e.active = "true"))
    ∧ (r.hostTbl = [] → (fetchHostTbl env).2 = .ok []) := by
  have hfe : (fetchHostTbl env).2 = .ok (r.hostTbl.map devOfEntry) := by
    simp [fetchHostTbl, hhost, hok]
  refine ⟨hfe, ?_, ?_⟩
  · intro e
    exact ⟨rfl, rfl, rfl, by simp [devOfEntry]⟩
  · intro h0
    rw [hfe, h0]
    rfl

/-- C7 witness: an empty table yields no devices and no error, the spec's
example record maps field-for-field with `Active` true, and an `active`
value other than `"true"` maps to `Active` false. -/
theorem C7_witness :
    (fetchHostTbl envRejected).2 = .ok []
    ∧ (devOfEntry ⟨"AA:BB:CC:DD:EE:FF", "192.168.0.5", "phone", "maybe"⟩).MAC =
        "AA:BB:CC:DD:EE:FF"
    ∧ (devOfEntry ⟨"AA:BB:CC:DD:EE:FF", "192.168.0.5", "phone", "maybe"⟩).IP =
        "192.168.0.5"
    ∧ (devOfEntry ⟨"AA:BB:CC:DD:EE:FF", "192.168.0.5", "phone", "maybe"⟩).Hostname =
        "phone"
    ∧ ((devOfEntry ⟨"AA:BB:CC:DD:EE:FF", "192.168.0.5", "phone", "maybe"⟩).Active = true
        ↔ ("maybe" : String) = "true") := by
  have T := C7_host_table_mapping envRejected ⟨"ok", "", [], "tok"⟩ rfl rfl
  have E := T.2.1 ⟨"AA:BB:CC:DD:EE:FF", "192.168.0.5", "phone", "maybe"⟩
  exact ⟨T.2.2 rfl, E.1, E.2.1, E.2.2.1, E.2.2.2⟩

/-- Sample environment: the credential-submit body is not a JSON object. -/
def envBadJson : Env :=
  { saltPost := .ok (.ok ⟨"ok", "abc", "def"⟩),
    credPost := .ok none,
    menuGet := .ok (),
    hostGet := .ok (.ok ⟨"ok", "", [], "tok"⟩),
    logoutPost := .ok () }

/-- Sample environment: the salt response body is not valid JSON. -/
def envSaltGarbage : Env :=
  { saltPost := .ok (.error ()),
    credPost := .ok none,
    menuGet := .ok (),
    hostGet := .ok (.ok ⟨"ok", "", [], "tok"⟩),
    logoutPost := .ok () }

/-- C9: an unparseable credential-submit body (not JSON, or not an object)
is reported as the generic rejection, not as a parse error — unlike the salt
response, whose unparseable body is a distinct parse error. -/
theorem C9_unparseable_login_response (c : Client) (env : Env) (sr : SaltResp)
    (hsalt : env.saltPost = .ok (.ok sr))
    (hs : sr.salt ≠ "") (hw : sr.saltWebUI ≠ "")
    (hcred : env.credPost = .ok none) :
    (tryLogin c env).2 = .error .rejected
    ∧ renderErr .rejected = "login failed with provided credentials"
    ∧ (∀ env' : Env, env'.saltPost = .ok (.error ()) →
        (tryLogin c env').2 = .error .saltParse)
    ∧ RErr.rejected ≠ RErr.saltParse := by
  refine ⟨?_, rfl, ?_, by decide⟩
  · simp [tryLogin, hsalt, hs, hw, hcred]
  · intro env' h
    simp [tryLogin, h]

/-- C9 witness: a non-object login body gives the generic rejection while a
non-JSON salt body gives the distinct parse error. -/
theorem C9_witness :
    (tryLogin ⟨"admin", "pw"⟩ envBadJson).2 = .error .rejected
    ∧ renderErr .rejected = "login failed with provided credentials"
    ∧ (tryLogin ⟨"admin", "pw"⟩ envSaltGarbage).2 = .error .saltParse
    ∧ RErr.rejected ≠ RErr.saltParse := by
  have T := C9_unparseable_login_response ⟨"admin", "pw"⟩ envBadJson
    ⟨"ok", "abc", "def"⟩ rfl (by decide) (by decide) rfl
  exact ⟨T.1, T.2.1, T.2.2.1 envSaltGarbage rfl, T.2.2.2⟩

/-- C10: the salt response's own `error` field is never inspected — two runs
differing only in that field are identical; and with non-empty `salt` and
`saltwebui` the protocol computes both hashes and submits the credential
POST whatever the `error` field holds. -/
theorem C10_salt_error_field_ignored (c : Client) (env : Env)
    (e₁ e₂ s sw : String) :
    tryLogin c { env with saltPost := .ok (.ok ⟨e₁, s, sw⟩) } =
      tryLogin c { env with saltPost := .ok (.ok ⟨e₂, s, sw⟩) }
    ∧ (s ≠ "" → sw ≠ "" →
        hashEvents (tryLogin c { env with saltPost := .ok (.ok ⟨e₁, s, sw⟩) }).1 =
          [(c.pass, s), (pbkdf2Hex c.pass s, sw)]
        ∧ Ev.postLoginCred (pbkdf2Hex (pbkdf2Hex c.pass s) sw) ∈
            (tryLogin c { env with saltPost := .ok (.ok ⟨e₁, s, sw⟩) }).1) := by
  constructor
  · rcases env with ⟨sp, cp, mg, hg, lp⟩
    rfl
  · intro hs hw
    exact tryLogin_hashEvents c _ ⟨e₁, s, sw⟩ rfl hs hw

/-- C10 witness: an `error` value of `"weird"` versus `"fail"` in the salt
response makes no difference, and both hashes and the credential POST still
happen. -/
theorem C10_witness :
    tryLogin ⟨"admin", "pw"⟩ { envHappy with saltPost := .ok (.ok ⟨"weird", "abc", "def"⟩) } =
      tryLogin ⟨"admin", "pw"⟩ { envHappy with saltPost := .ok (.ok ⟨"fail", "abc", "def"⟩) }
    ∧ hashEvents (tryLogin ⟨"admin", "pw"⟩
        { envHappy with saltPost := .ok (.ok ⟨"weird", "abc", "def"⟩) }).1 =
        [("pw", "abc"), (pbkdf2Hex "pw" "abc", "def")]
    ∧ Ev.postLoginCred (pbkdf2Hex (pbkdf2Hex "pw" "abc") "def") ∈
        (tryLogin ⟨"admin", "pw"⟩
          { envHappy with saltPost := .ok (.ok ⟨"weird", "abc", "def"⟩) }).1 := by
  have T := C10_salt_error_field_ignored ⟨"admin", "pw"⟩ envHappy "weird" "fail" "abc" "def"
  exact ⟨T.1, (T.2 (by decide) (by decide)).1, (T.2 (by decide) (by decide)).2⟩

/-- C8: `normalize` is idempotent, `match` is exactly equality of the
normalized forms, hence symmetric and reflexive, and both are insensitive
to the separators `':'`, `'-'`, `'.'`, `' '` and to ASCII letter case. -/
theorem C8_normalize_match_algebra :
    (∀ x : List Nat, normalizeMAC (normalizeMAC x) = normalizeMAC x)
    ∧ (∀ a b : List Nat, MatchMAC a b = (normalizeMAC a == normalizeMAC b))
    ∧ (∀ a b : List Nat, MatchMAC a b = MatchMAC b a)
    ∧ (∀ a : List Nat, MatchMAC a a = true)
    ∧ (∀ a b c : List Nat,
        MatchMAC (a ++ 58 :: b) c = MatchMAC (a ++ b) c
        ∧ MatchMAC (a ++ 45 :: b) c = MatchMAC (a ++ b) c
        ∧ MatchMAC (a ++ 46 :: b) c = MatchMAC (a ++ b) c
        ∧ MatchMAC (a ++ 32 :: b) c = MatchMAC (a ++ b) c)
    ∧ (∀ a b : List Nat,
        MatchMAC (a.map upperByte) b = MatchMAC a b
        ∧ MatchMAC a (b.map upperByte) = MatchMAC a b
        ∧ MatchMAC (a.map lowerByte) b = MatchMAC a b
        ∧ MatchMAC a (b.map lowerByte) = MatchMAC a b)
    ∧ MatchMAC (asciiBytes "AA:BB:CC:DD:EE:FF") (asciiBytes "aa-bb-cc-dd-ee-ff") = true
    ∧ MatchMAC (asciiBytes "AABBCCDDEEFF") (asciiBytes "aabbccddeeff") = true := by
  refine ⟨normalizeMAC_idem, fun a b => rfl, ?_, ?_, ?_, ?_, by decide, by decide⟩
  · intro a b
    unfold MatchMAC
    rw [Bool.eq_iff_iff]
    simp only [beq_iff_eq]
    exact ⟨Eq.symm, Eq.symm⟩
  · intro a
    simp [MatchMAC]
  · intro a b c
    refine ⟨?_, ?_, ?_, ?_⟩ <;>
      (unfold MatchMAC; rw [normalizeMAC_sep_insert _ _ _ (by decide)])
  · intro a b
    refine ⟨?_, ?_, ?_, ?_⟩ <;> unfold MatchMAC
    · rw [normalizeMAC_map_upper]
    · rw [normalizeMAC_map_upper]
    · rw [normalizeMAC_map_lower]
    · rw [normalizeMAC_map_lower]

end AmIHome
